import Mathlib

/-!
Shallow embedding of `src/euraxess/app/euraxess_mcp.py`.

The Python module manipulates the dynamically-typed output of
`xmltodict.parse`: nested dictionaries whose values are strings, `None`,
dictionaries, or lists (for repeated keys).  We model such a value as
`XData`.  Python operations that can raise (`.get` on a non-dict,
iterating `None`, pydantic field validation) are modelled in the
`Except PyErr` monad, with one `PyErr` constructor per exception class
the module can encounter.
-/

/-- A value of the dynamic structure produced by `xmltodict.parse`:
a string, `None` (empty element), a mapping (Python `dict`, association
list keyed by strings), or a list (repeated XML keys). -/
inductive XData where
  | null : XData
  | str (s : String) : XData
  | obj (fields : List (String × XData)) : XData
  | list (xs : List XData) : XData

/-- Python exception classes that the module's code paths can raise:
`ExpatError` from `xmltodict.parse` on non-XML input, `AttributeError`
from `.get` on a non-dict, `TypeError` from iterating `None` (or passing
a non-string to `dateutil`), and pydantic's `ValidationError`. -/
inductive PyErr where
  | expatError : PyErr
  | attributeError : PyErr
  | typeError : PyErr
  | validationError : PyErr
deriving DecidableEq

/-- Python truthiness of an `XData` value: `None`, empty strings, empty
dicts and empty lists are falsy. -/
def pyTruthy : XData → Bool
  | .null => false
  | .str s => !s.isEmpty
  | .obj fields => !fields.isEmpty
  | .list xs => !xs.isEmpty

/-- Python `a or b` on `XData` values. -/
def pyOr (a b : XData) : XData :=
  if pyTruthy a then a else b

/-- Python `d.get(key, default)`: succeeds only on a dict (otherwise
`AttributeError`); returns the stored value (which may be `None`) when
the key is present, the default otherwise. -/
def pyGetD : XData → String → XData → Except PyErr XData
  | .obj fields, k, d => .ok ((fields.lookup k).getD d)
  | _, _, _ => .error .attributeError

/-- Python `d.get(key)` with the implicit `None` default. -/
def pyGet1 (v : XData) (k : String) : Except PyErr XData :=
  pyGetD v k .null

/-- Python `isinstance(v, dict)`. -/
def XData.isDict : XData → Bool
  | .obj _ => true
  | _ => false

/-- Python iteration over an `XData` value: lists yield their elements,
strings yield their one-character substrings, dicts yield their keys,
and `None` raises `TypeError`. -/
def pyIter : XData → Except PyErr (List XData)
  | .list xs => .ok xs
  | .str s => .ok (s.data.map fun c => .str (String.mk [c]))
  | .obj fields => .ok (fields.map fun kv => .str kv.1)
  | .null => .error .typeError

/-- The pydantic model `JobItem`: the normalized record shape produced by
`_parse_item`.  `raw` holds the original entry mapping (`Optional[dict]`). -/
structure JobItem where
  source : String
  source_ref : Option String
  url : Option String
  title : Option String
  description_raw : Option String
  posted_date : Option String
  raw : XData

/-- Pydantic validation of an `Optional[str]` field: `None` and strings
pass; dicts and lists raise `ValidationError`. -/
def validateOptStr : XData → Except PyErr (Option String)
  | .null => .ok none
  | .str s => .ok (some s)
  | _ => .error .validationError

/-- Pydantic validation of an `Optional[dict]` field: `None` and dicts
pass; strings and lists raise `ValidationError`. -/
def validateOptDict : XData → Except PyErr XData
  | .null => .ok .null
  | .obj fields => .ok (.obj fields)
  | _ => .error .validationError

/-- The `posted_date` computation of `_parse_item`:
`dateparser.parse(pubDate).date().isoformat() if pubDate else None`
inside `try/except`.  `dparse` abstracts the permissive
`dateutil` parse composed with `.date().isoformat()` (returning `none`
on any parse failure); a truthy non-string `pubDate` makes
`dateparser.parse` raise `TypeError`, which the `except` swallows. -/
def postedDate (dparse : String → Option String) (pubDate : XData) : Option String :=
  if pyTruthy pubDate then
    match pubDate with
    | .str s => dparse s
    | _ => none
  else none

/-- Embedding of `_parse_item(item)`: extracts `title`, `link`, `description`
(defaulted to the empty string), `pubDate`, `guid`, computes
`posted_date` and `source_ref = item.get("guid") or link`, then builds
the pydantic `JobItem` (validating each field in declaration order). -/
def parse_item (dparse : String → Option String) (item : XData) : Except PyErr JobItem := do
  let title ← pyGet1 item "title"
  let link ← pyGet1 item "link"
  let desc0 ← pyGet1 item "description"
  let desc := pyOr desc0 (.str "")
  let pubDate ← pyGet1 item "pubDate"
  let posted_date := postedDate dparse pubDate
  let guid ← pyGet1 item "guid"
  let source_ref := pyOr guid link
  let source_ref' ← validateOptStr source_ref
  let url' ← validateOptStr link
  let title' ← validateOptStr title
  let desc' ← validateOptStr desc
  let raw' ← validateOptDict item
  .ok { source := "euraxess", source_ref := source_ref', url := url', title := title',
        description_raw := desc', posted_date := posted_date, raw := raw' }

/-- The list comprehension `[_parse_item(it) for it in items]`:
left-to-right, propagating the first exception. -/
def mapParse (dparse : String → Option String) : List XData → Except PyErr (List JobItem)
  | [] => .ok []
  | it :: rest => do
    let r ← parse_item dparse it
    let rs ← mapParse dparse rest
    .ok (r :: rs)

/-- Body of `parse_rss_text_to_items` after `xmltodict.parse`:
`data.get("rss", {}).get("channel", {}).get("item", [])`, the
`isinstance(items, dict)` single-item wrap, then the comprehension. -/
def parse_rss_items (dparse : String → Option String) (data : XData) :
    Except PyErr (List JobItem) := do
  let rss ← pyGetD data "rss" (.obj [])
  let channel ← pyGetD rss "channel" (.obj [])
  let items0 ← pyGetD channel "item" (.list [])
  let items := if items0.isDict then XData.list [items0] else items0
  let itemList ← pyIter items
  mapParse dparse itemList

/-- Embedding of `parse_rss_text_to_items(rss_text)` (un-memoized body):
`xmltodict.parse` — abstracted as `xmlp`, returning `none` exactly when
the text is not parseable as XML, in which case `ExpatError` is raised —
followed by the extraction pipeline. -/
def parse_rss_text_to_items (xmlp : String → Option XData)
    (dparse : String → Option String) (rss_text : String) : Except PyErr (List JobItem) :=
  match xmlp rss_text with
  | none => .error .expatError
  | some data => parse_rss_items dparse data

/-- An `httpx` response as used by the module: status code, headers and
body text (a response value exists exactly when the fetch technically
succeeded, i.e. no transport error). -/
structure Response where
  status_code : Nat
  headers : List (String × String)
  text : String

/-- Embedding of `r.raise_for_status()`: it succeeds exactly on 2xx success codes; on any
other status it raises `httpx.HTTPStatusError`, a subclass of
`httpx.HTTPError`, which the module's `except httpx.HTTPError` catches. -/
def raiseForStatusOk (r : Response) : Bool :=
  decide (200 ≤ r.status_code) && decide (r.status_code < 300)

/-- An error escaping a facade handler: either a FastAPI `HTTPException`
with its status code (here always 502), or an uncaught Python exception
propagating out of the parsing pipeline. -/
inductive ServiceErr where
  | httpException (code : Nat) : ServiceErr
  | pyError (e : PyErr) : ServiceErr
deriving DecidableEq

/-- The payload returned by `/get_job`:
`{"url": url, "status_code": ..., "headers": ..., "raw_html": r.text}`. -/
structure GetJobResult where
  url : String
  status_code : Nat
  headers : List (String × String)
  raw_html : String
deriving DecidableEq

/-- Embedding of `get_job(url)`: fetch the page (`fetched = none` models a transport
failure), call `raise_for_status()`, catch any `httpx.HTTPError` as a
502 `HTTPException`, and otherwise return the response verbatim. -/
def get_job (url : String) (fetched : Option Response) : Except ServiceErr GetJobResult :=
  match fetched with
  | none => .error (.httpException 502)
  | some r =>
    if raiseForStatusOk r then
      .ok { url := url, status_code := r.status_code, headers := r.headers, raw_html := r.text }
    else .error (.httpException 502)

/-- The payload returned by `/list_jobs`:
`{"count": len(items[:limit]), "jobs": items[:limit]}`. -/
structure ListJobsResult where
  count : Nat
  jobs : List JobItem

/-- Embedding of `list_jobs(limit)`: fetch the feed, `raise_for_status()` (any
`httpx.HTTPError` becomes a 502 `HTTPException`), then parse; an
exception raised by the parsing pipeline is not caught and propagates.
`limit` has been validated by FastAPI (`ge=1, le=500`) before the body
runs. -/
def list_jobs (xmlp : String → Option XData) (dparse : String → Option String)
    (limit : Nat) (fetched : Option Response) : Except ServiceErr ListJobsResult :=
  match fetched with
  | none => .error (.httpException 502)
  | some r =>
    if raiseForStatusOk r then
      match parse_rss_text_to_items xmlp dparse r.text with
      | .error e => .error (.pyError e)
      | .ok items => .ok { count := (items.take limit).length, jobs := items.take limit }
    else .error (.httpException 502)

/-- State of the `functools.lru_cache(maxsize=32)` for `parse_rss_text_to_items`:
association list from feed text to the cached result, most recently used
first.  Exceptions are not cached (`lru_cache` only stores results of
successful calls). -/
structure LruCache where
  entries : List (String × List JobItem)

/-- The `lru_cache` maxsize of `parse_rss_text_to_items`. -/
def CACHE_MAXSIZE : Nat := 32

/-- One call through the memoized `parse_rss_text_to_items`: on a hit
the stored value is returned and the entry moves to the front (most
recently used); on a miss the underlying function runs, and a successful
result is inserted, evicting the least recently used entries beyond
`CACHE_MAXSIZE`. -/
def cachedParse (f : String → Except PyErr (List JobItem)) (c : LruCache) (t : String) :
    Except PyErr (List JobItem) × LruCache :=
  match c.entries.lookup t with
  | some v => (.ok v, ⟨(t, v) :: c.entries.eraseP (fun e => e.1 == t)⟩)
  | none =>
    match f t with
    | .error e => (.error e, c)
    | .ok v => (.ok v, ⟨((t, v) :: c.entries).take CACHE_MAXSIZE⟩)

/-- The cache invariant: every stored entry is the result of a
successful call of the underlying function on its key. -/
def CacheInv (f : String → Except PyErr (List JobItem)) (c : LruCache) : Prop :=
  ∀ k v, (k, v) ∈ c.entries → f k = .ok v

/-!  Derived notions used to state and prove the claims.  -/

/-- A scalar `xmltodict` value: a plain string or `None` — what a flat
RSS text element yields (as opposed to nested markup or attributed
elements, which yield dicts). -/
def isScalar : XData → Bool
  | .null => true
  | .str _ => true
  | _ => false

/-- The value stored under key `k`, with absence collapsed to `None`
(matching `d.get(k)`). -/
def fieldOf (fields : List (String × XData)) (k : String) : XData :=
  (fields.lookup k).getD .null

/-- The field under `k` is absent or scalar. -/
def scalarAt (fields : List (String × XData)) (k : String) : Bool :=
  isScalar (fieldOf fields k)

/-- The `Optional[str]` view of a scalar value. -/
def optStrOf : XData → Option String
  | .str s => some s
  | _ => none

/-- A "flat" feed item: a mapping whose `title`, `link`, `description`
and `guid` entries (if any) are plain text — the shape every item of a
plain-text RSS channel has after `xmltodict`. -/
def SimpleItem : XData → Bool
  | .obj fields =>
    scalarAt fields "title" && scalarAt fields "link" &&
      scalarAt fields "description" && scalarAt fields "guid"
  | _ => false

/-- The record `_parse_item` produces on a flat item, written out
field-by-field (proved equal to `parse_item`'s output below). -/
def expectedRecord (dparse : String → Option String)
    (fields : List (String × XData)) : JobItem where
  source := "euraxess"
  source_ref := optStrOf (pyOr (fieldOf fields "guid") (fieldOf fields "link"))
  url := optStrOf (fieldOf fields "link")
  title := optStrOf (fieldOf fields "title")
  description_raw := optStrOf (pyOr (fieldOf fields "description") (.str ""))
  posted_date := postedDate dparse (fieldOf fields "pubDate")
  raw := .obj fields

/-- How `xmltodict` stores the repeated `item` key of a channel with the
given items: key absent for zero items, the bare value for one item
(the scalar/single collapse), a list for two or more. -/
def itemsRepr : List XData → Option XData
  | [] => none
  | [x] => some x
  | xs => some (.list xs)

/-- The `xmltodict` structure of an RSS document whose channel element
has the given fields. -/
def rssData (channelFields : List (String × XData)) : XData :=
  .obj [("rss", .obj [("channel", .obj channelFields)])]

theorem exceptBind_ok {α β ε : Type} (a : α) (f : α → Except ε β) :
    (Except.ok a >>= f : Except ε β) = f a := rfl

theorem exceptBind_error {α β ε : Type} (e : ε) (f : α → Except ε β) :
    (Except.error e >>= f : Except ε β) = Except.error e := rfl

theorem isScalar_cases {v : XData} (h : isScalar v = true) :
    v = .null ∨ ∃ s, v = .str s := by
  cases v with
  | null => exact Or.inl rfl
  | str s => exact Or.inr ⟨s, rfl⟩
  | obj fields => simp [isScalar] at h
  | list xs => simp [isScalar] at h

theorem validateOptStr_scalar {v : XData} (h : isScalar v = true) :
    validateOptStr v = .ok (optStrOf v) := by
  rcases isScalar_cases h with h1 | ⟨s, h1⟩ <;> subst h1 <;> rfl

theorem isScalar_pyOr {a b : XData} (ha : isScalar a = true) (hb : isScalar b = true) :
    isScalar (pyOr a b) = true := by
  unfold pyOr
  split <;> assumption

theorem pyGet1_obj (fields : List (String × XData)) (k : String) :
    pyGet1 (.obj fields) k = .ok (fieldOf fields k) := rfl

theorem parse_item_flat (dparse : String → Option String) (fields : List (String × XData))
    (ht : scalarAt fields "title" = true) (hl : scalarAt fields "link" = true)
    (hd : scalarAt fields "description" = true) (hg : scalarAt fields "guid" = true) :
    parse_item dparse (.obj fields) = .ok (expectedRecord dparse fields) := by
  have hstr : isScalar (.str "") = true := rfl
  simp only [parse_item, pyGet1_obj, exceptBind_ok,
    validateOptStr_scalar (isScalar_pyOr hg hl),
    validateOptStr_scalar hl, validateOptStr_scalar ht,
    validateOptStr_scalar (isScalar_pyOr hd hstr),
    validateOptDict, expectedRecord]

theorem parse_item_simple (dparse : String → Option String) {it : XData}
    (h : SimpleItem it = true) :
    ∃ fields, it = .obj fields ∧ parse_item dparse it = .ok (expectedRecord dparse fields) := by
  cases it with
  | obj fields =>
    simp only [SimpleItem, Bool.and_eq_true] at h
    exact ⟨fields, rfl, parse_item_flat dparse fields h.1.1.1 h.1.1.2 h.1.2 h.2⟩
  | null => simp [SimpleItem] at h
  | str s => simp [SimpleItem] at h
  | list xs => simp [SimpleItem] at h

theorem simpleItem_isDict {it : XData} (h : SimpleItem it = true) : it.isDict = true := by
  cases it <;> simp_all [SimpleItem, XData.isDict]

theorem mapParse_simple (dparse : String → Option String) (l : List XData)
    (h : ∀ it ∈ l, SimpleItem it = true) :
    ∃ rs, mapParse dparse l = .ok rs ∧ rs.length = l.length ∧
      ∀ i (hi : i < rs.length) (hj : i < l.length), (rs.get ⟨i, hi⟩).raw = l.get ⟨i, hj⟩ := by
  induction l with
  | nil => exact ⟨[], rfl, rfl, fun i hi _ => absurd hi (by simp)⟩
  | cons it rest ih =>
    obtain ⟨fields, hfe, hpe⟩ :=
      parse_item_simple dparse (h it (List.mem_cons_self it rest))
    obtain ⟨rs, hrs, hlen, hraw⟩ := ih (fun x hx => h x (List.mem_cons_of_mem _ hx))
    refine ⟨expectedRecord dparse fields :: rs, ?_, by simp [hlen], ?_⟩
    · simp only [mapParse, hpe, exceptBind_ok, hrs]
    · intro i hi hj
      cases i with
      | zero => simp [expectedRecord, hfe]
      | succ n =>
        simp only [List.get_cons_succ]
        exact hraw n (Nat.lt_of_succ_lt_succ hi) (Nat.lt_of_succ_lt_succ hj)

theorem validateOptStr_error {v : XData} {e : PyErr} (h : validateOptStr v = .error e) :
    e = .validationError := by
  cases v <;> simp_all [validateOptStr]

theorem pyGetD_error {v d : XData} {k : String} {e : PyErr} (h : pyGetD v k d = .error e) :
    e = .attributeError := by
  cases v <;> simp_all [pyGetD]

theorem pyIter_error {v : XData} {e : PyErr} (h : pyIter v = .error e) :
    e = .typeError := by
  cases v <;> simp_all [pyIter]

/-- Evaluation of `_parse_item` on a mapping, reduced to its validation chain (the
`.get` calls have succeeded). -/
theorem parse_item_obj_eq (dparse : String → Option String) (fields : List (String × XData)) :
    parse_item dparse (.obj fields) = (do
      let sr ← validateOptStr (pyOr (fieldOf fields "guid") (fieldOf fields "link"))
      let u ← validateOptStr (fieldOf fields "link")
      let ti ← validateOptStr (fieldOf fields "title")
      let de ← validateOptStr (pyOr (fieldOf fields "description") (XData.str ""))
      let ra ← validateOptDict (XData.obj fields)
      Except.ok (JobItem.mk "euraxess" sr u ti de
        (postedDate dparse (fieldOf fields "pubDate")) ra)) := rfl

theorem parse_item_ne_expat (dparse : String → Option String) (it : XData) :
    parse_item dparse it ≠ .error .expatError := by
  cases it with
  | obj fields =>
    rw [parse_item_obj_eq]
    cases h1 : validateOptStr (pyOr (fieldOf fields "guid") (fieldOf fields "link")) with
    | error e => rw [exceptBind_error]; rw [validateOptStr_error h1]; simp
    | ok sr =>
      rw [exceptBind_ok]
      cases h2 : validateOptStr (fieldOf fields "link") with
      | error e => rw [exceptBind_error]; rw [validateOptStr_error h2]; simp
      | ok u =>
        rw [exceptBind_ok]
        cases h3 : validateOptStr (fieldOf fields "title") with
        | error e => rw [exceptBind_error]; rw [validateOptStr_error h3]; simp
        | ok ti =>
          rw [exceptBind_ok]
          cases h4 : validateOptStr (pyOr (fieldOf fields "description") (XData.str "")) with
          | error e => rw [exceptBind_error]; rw [validateOptStr_error h4]; simp
          | ok de => rw [exceptBind_ok]; simp [validateOptDict, exceptBind_ok]
  | null => intro h; simp [show parse_item dparse .null = .error .attributeError from rfl] at h
  | str s => intro h; simp [show parse_item dparse (.str s) = .error .attributeError from rfl] at h
  | list xs =>
    intro h
    simp [show parse_item dparse (.list xs) = .error .attributeError from rfl] at h

theorem mapParse_ne_expat (dparse : String → Option String) (l : List XData) :
    mapParse dparse l ≠ .error .expatError := by
  induction l with
  | nil => simp [mapParse]
  | cons it rest ih =>
    intro h
    simp only [mapParse] at h
    cases hp : parse_item dparse it with
    | error e =>
      rw [hp, exceptBind_error] at h
      exact parse_item_ne_expat dparse it (hp.trans (by rw [Except.error.inj h]))
    | ok r =>
      rw [hp, exceptBind_ok] at h
      cases hm : mapParse dparse rest with
      | error e => rw [hm, exceptBind_error] at h; exact ih (hm.trans (by rw [Except.error.inj h]))
      | ok rs => rw [hm, exceptBind_ok] at h; exact Except.noConfusion h

theorem parse_rss_items_ne_expat (dparse : String → Option String) (data : XData) :
    parse_rss_items dparse data ≠ .error .expatError := by
  intro h
  simp only [parse_rss_items] at h
  cases h1 : pyGetD data "rss" (.obj []) with
  | error e => rw [h1, exceptBind_error] at h; simp [pyGetD_error h1] at h
  | ok rss =>
    rw [h1, exceptBind_ok] at h
    cases h2 : pyGetD rss "channel" (.obj []) with
    | error e => rw [h2, exceptBind_error] at h; simp [pyGetD_error h2] at h
    | ok channel =>
      rw [h2, exceptBind_ok] at h
      cases h3 : pyGetD channel "item" (.list []) with
      | error e => rw [h3, exceptBind_error] at h; simp [pyGetD_error h3] at h
      | ok items0 =>
        rw [h3, exceptBind_ok] at h
        cases h4 : pyIter (if items0.isDict then XData.list [items0] else items0) with
        | error e => rw [h4, exceptBind_error] at h; simp [pyIter_error h4] at h
        | ok itemList => rw [h4, exceptBind_ok] at h; exact mapParse_ne_expat dparse itemList h

theorem parse_rss_items_eq_mapParse (dparse : String → Option String)
    (cf : List (String × XData)) (items : List XData)
    (hitem : cf.lookup "item" = itemsRepr items)
    (hd : ∀ it ∈ items, XData.isDict it = true) :
    parse_rss_items dparse (rssData cf) = mapParse dparse items := by
  have e1 : parse_rss_items dparse (rssData cf) =
      (do
        let items0 ← Except.ok ((cf.lookup "item").getD (.list []))
        let items1 := if items0.isDict then XData.list [items0] else items0
        let itemList ← pyIter items1
        mapParse dparse itemList) := rfl
  rw [e1, hitem]
  cases items with
  | nil => rfl
  | cons x rest =>
    cases rest with
    | nil =>
      have hx := hd x (List.mem_cons_self x [])
      cases x with
      | obj fields => rfl
      | null => simp [XData.isDict] at hx
      | str s => simp [XData.isDict] at hx
      | list xs => simp [XData.isDict] at hx
    | cons y rest2 => rfl

theorem lookup_eq_some_mem {β : Type} {k : String} {v : β} :
    ∀ {l : List (String × β)}, l.lookup k = some v → (k, v) ∈ l := by
  intro l
  induction l with
  | nil => intro h; simp [List.lookup] at h
  | cons hd tl ih =>
    intro h
    obtain ⟨k', v'⟩ := hd
    by_cases hk : k = k'
    · subst hk
      simp [List.lookup] at h
      simp [h]
    · have hne : (k == k') = false := beq_eq_false_iff_ne.mpr hk
      simp [List.lookup, hne] at h
      exact List.mem_cons_of_mem _ (ih h)

theorem mem_take_mem {α : Type} {a : α} : ∀ {n : Nat} {l : List α}, a ∈ l.take n → a ∈ l := by
  intro n l
  induction l generalizing n with
  | nil => intro h; simp at h
  | cons x xs ih =>
    intro h
    cases n with
    | zero => simp [List.take] at h
    | succ m =>
      simp only [List.take] at h
      rcases List.mem_cons.mp h with h | h
      · simp [h]
      · exact List.mem_cons_of_mem _ (ih h)

theorem mem_eraseP_mem {α : Type} {a : α} {p : α → Bool} :
    ∀ {l : List α}, a ∈ l.eraseP p → a ∈ l := by
  intro l
  induction l with
  | nil => intro h; simp [List.eraseP] at h
  | cons x xs ih =>
    intro h
    cases hp : p x with
    | true =>
      simp only [List.eraseP, hp, cond_true] at h
      exact List.mem_cons_of_mem _ h
    | false =>
      simp only [List.eraseP, hp, cond_false] at h
      rcases List.mem_cons.mp h with h | h
      · simp [h]
      · exact List.mem_cons_of_mem _ (ih h)

/-- Correctness of the memoization: when every cached entry agrees with
the underlying function, a call through the cache returns exactly what a
fresh call would, and the invariant is preserved. -/
theorem cachedParse_spec (f : String → Except PyErr (List JobItem)) (c : LruCache)
    (t : String) (hinv : CacheInv f c) :
    (cachedParse f c t).1 = f t ∧ CacheInv f (cachedParse f c t).2 := by
  cases hl : c.entries.lookup t with
  | some v =>
    have hft : f t = .ok v := hinv t v (lookup_eq_some_mem hl)
    constructor
    · simp [cachedParse, hl, hft]
    · intro k w hkw
      simp only [cachedParse, hl] at hkw
      rcases List.mem_cons.mp hkw with he | hm
      · obtain ⟨hk, hw⟩ := Prod.mk.injEq .. ▸ he
        subst hk; subst hw; exact hft
      · exact hinv k w (mem_eraseP_mem hm)
  | none =>
    cases hf : f t with
    | error e =>
      constructor
      · simp [cachedParse, hl, hf]
      · intro k w hkw
        simp only [cachedParse, hl, hf] at hkw
        exact hinv k w hkw
    | ok v =>
      constructor
      · simp [cachedParse, hl, hf]
      · intro k w hkw
        simp only [cachedParse, hl, hf] at hkw
        rcases List.mem_cons.mp (mem_take_mem hkw) with he | hm
        · obtain ⟨hk, hw⟩ := Prod.mk.injEq .. ▸ he
          subst hk; subst hw; exact hf
        · exact hinv k w hm

/-!  Concrete instantiations used by witnesses and counterexamples.  -/

/-- A date parser that accepts nothing (the date parser is irrelevant to
most concrete evaluations). -/
def dparse0 : String → Option String := fun _ => none

/-- C1 (as stated) is false: a fetch that technically succeeds with an
upstream 404 is not forwarded — `raise_for_status()` raises
`httpx.HTTPStatusError`, caught as `httpx.HTTPError` and turned into a
502 `HTTPException`, so the caller never sees status 404, the headers or
the body. -/
theorem get_job_rejects_404 :
    get_job "https://example.org/job/1"
        (some { status_code := 404, headers := [("content-type", "text/html")],
                text := "Not Found" }) =
      .error (.httpException 502) := rfl

/-- C1 (amended): for every URL whose fetch succeeds with a 2xx status,
`get_job` returns the exact upstream status code, header set and body
text unmodified; non-2xx responses are rejected with a 502. -/
theorem get_job_passthrough_2xx (url : String) (r : Response)
    (h : raiseForStatusOk r = true) :
    get_job url (some r) =
      .ok { url := url, status_code := r.status_code, headers := r.headers,
            raw_html := r.text } := by
  simp [get_job, h]

/-- A 200 response used by the C1 witness. -/
def w1resp : Response :=
  { status_code := 200, headers := [("server", "nginx")], text := "<html></html>" }

/-- Witness for the amended C1 at a concrete 200 response. -/
theorem get_job_passthrough_2xx_witness :
    raiseForStatusOk w1resp = true ∧
      get_job "https://example.org/job/2" (some w1resp) =
        .ok { url := "https://example.org/job/2", status_code := 200,
              headers := [("server", "nginx")], raw_html := "<html></html>" } :=
  ⟨by decide, get_job_passthrough_2xx _ _ (by decide)⟩

/-- C2 (amended): for every feed whose channel stores N item elements
(zero: no `item` key; one: the bare item; several: a list — exactly how
`xmltodict` represents them), where each item is a flat mapping whose
`title`, `link`, `description` and `guid` are plain text or absent,
`parse` returns exactly N records, in source order (record i's `raw` is
item i). -/
theorem parse_feed_count_order (dparse : String → Option String)
    (cf : List (String × XData)) (items : List XData)
    (hitem : cf.lookup "item" = itemsRepr items)
    (hsimple : ∀ it ∈ items, SimpleItem it = true) :
    ∃ rs, parse_rss_items dparse (rssData cf) = .ok rs ∧ rs.length = items.length ∧
      ∀ i (hi : i < rs.length) (hj : i < items.length),
        (rs.get ⟨i, hi⟩).raw = items.get ⟨i, hj⟩ := by
  rw [parse_rss_items_eq_mapParse dparse cf items hitem
    (fun it hit => simpleItem_isDict (hsimple it hit))]
  exact mapParse_simple dparse items hsimple

/-- First witness item: a two-field flat item. -/
def w2item1 : XData := .obj [("title", .str "Job A"), ("link", .str "https://example.org/a")]

/-- Second witness item: a one-field flat item. -/
def w2item2 : XData := .obj [("title", .str "Job B")]

/-- Channel fields of the C2 witness feed. -/
def w2cf : List (String × XData) := [("title", .str "chan"), ("item", .list [w2item1, w2item2])]

/-- Witness for the amended C2: a two-item channel yields two records. -/
theorem parse_feed_count_order_witness :
    (List.lookup "item" w2cf = itemsRepr [w2item1, w2item2]) ∧
      ∃ rs, parse_rss_items dparse0 (rssData w2cf) = .ok rs ∧ rs.length = 2 := by
  refine ⟨rfl, ?_⟩
  obtain ⟨rs, h1, h2, _⟩ := parse_feed_count_order dparse0 w2cf [w2item1, w2item2] rfl (by decide)
  exact ⟨rs, h1, h2⟩

/-- An item of a perfectly valid RSS 2.0 feed whose `guid` carries the
standard `isPermaLink` attribute; `xmltodict` turns such a `guid` into a
mapping with `@isPermaLink` and `#text` keys. -/
def guidAttrItem : XData :=
  .obj [("guid", .obj [("@isPermaLink", .str "true"),
    ("#text", .str "https://euraxess.ec.europa.eu/jobs/1")])]

/-- The feed text whose `xmltodict` structure is the single-item channel
around `guidAttrItem`. -/
def guidAttrFeedText : String :=
  "<rss><channel><item><guid isPermaLink=\"true\">https://euraxess.ec.europa.eu/jobs/1</guid></item></channel></rss>"

/-- The abstracted `xmltodict.parse` for the C2 counterexample. -/
def xmlpGuidAttr : String → Option XData := fun s =>
  if s = guidAttrFeedText then some (rssData [("item", guidAttrItem)]) else none

/-- C2 (as stated) is false: this well-formed RSS feed has a channel
with exactly one item element, yet `parse` does not return one record —
`source_ref` receives the `guid` mapping `{"@isPermaLink": ..., "#text": ...}`
and pydantic's `Optional[str]` validation raises `ValidationError`. -/
theorem guid_attr_feed_not_one_record :
    parse_rss_text_to_items xmlpGuidAttr dparse0 guidAttrFeedText =
      .error .validationError := rfl

/-- C3: a channel whose single item arrives collapsed to the bare
mapping normalizes exactly like the same item arriving as a one-element
list (the `isinstance(items, dict)` re-wrap). -/
theorem single_item_scalar_list_equiv (dparse : String → Option String)
    (rest : List (String × XData)) (x : XData) (hx : x.isDict = true) :
    parse_rss_items dparse (rssData (("item", x) :: rest)) =
      parse_rss_items dparse (rssData (("item", XData.list [x]) :: rest)) := by
  cases x with
  | obj fields => rfl
  | null => simp [XData.isDict] at hx
  | str s => simp [XData.isDict] at hx
  | list xs => simp [XData.isDict] at hx

/-- Witness for C3 at a concrete one-field item. -/
theorem single_item_scalar_list_equiv_witness :
    XData.isDict (.obj [("title", .str "T")]) = true ∧
      parse_rss_items dparse0 (rssData [("item", .obj [("title", .str "T")])]) =
        parse_rss_items dparse0 (rssData [("item", XData.list [.obj [("title", .str "T")]])]) :=
  ⟨by decide, single_item_scalar_list_equiv dparse0 [] _ (by decide)⟩

/-- C4: on a flat item, `source_ref` is the `guid` when it is present
and non-empty, else the `link` (including an empty-string `guid` falling
through, since `or` tests Python truthiness), else absent. -/
theorem source_ref_policy (dparse : String → Option String) (fields : List (String × XData))
    (ht : scalarAt fields "title" = true) (hl : scalarAt fields "link" = true)
    (hd : scalarAt fields "description" = true) :
    (∀ g, fields.lookup "guid" = some (.str g) → g ≠ "" →
      ∃ r, parse_item dparse (.obj fields) = .ok r ∧ r.source_ref = some g) ∧
    ((fields.lookup "guid" = none ∨ fields.lookup "guid" = some .null ∨
        fields.lookup "guid" = some (.str "")) →
      (∀ l, fields.lookup "link" = some (.str l) →
        ∃ r, parse_item dparse (.obj fields) = .ok r ∧ r.source_ref = some l) ∧
      ((fields.lookup "link" = none ∨ fields.lookup "link" = some .null) →
        ∃ r, parse_item dparse (.obj fields) = .ok r ∧ r.source_ref = none)) := by
  constructor
  · intro g hgl hge
    have hg : scalarAt fields "guid" = true := by simp [scalarAt, fieldOf, hgl, isScalar]
    refine ⟨expectedRecord dparse fields, parse_item_flat dparse fields ht hl hd hg, ?_⟩
    have hne : g.isEmpty = false := by
      cases hcase : g.isEmpty with
      | true => exact absurd ((String.isEmpty_iff g).mp hcase) hge
      | false => rfl
    simp [expectedRecord, fieldOf, hgl, pyOr, pyTruthy, hne, optStrOf]
  · intro hgabs
    have hgV : fieldOf fields "guid" = .null ∨ fieldOf fields "guid" = .str "" := by
      rcases hgabs with h | h | h <;> simp [fieldOf, h]
    have hg : scalarAt fields "guid" = true := by
      rcases hgV with h | h <;> simp [scalarAt, h, isScalar]
    have hfalsy : pyTruthy (fieldOf fields "guid") = false := by
      rcases hgV with h | h
      · simp [h, pyTruthy]
      · rw [h]; decide
    constructor
    · intro l hll
      have hlf : fieldOf fields "link" = .str l := by simp [fieldOf, hll]
      refine ⟨expectedRecord dparse fields, parse_item_flat dparse fields ht hl hd hg, ?_⟩
      simp [expectedRecord, pyOr, hfalsy, hlf, optStrOf]
    · intro hlabs
      have hlV : fieldOf fields "link" = .null := by
        rcases hlabs with h | h <;> simp [fieldOf, h]
      refine ⟨expectedRecord dparse fields, parse_item_flat dparse fields ht hl hd hg, ?_⟩
      simp [expectedRecord, pyOr, hfalsy, hlV, optStrOf]

/-- Fields of the C4 witness item: a non-empty `guid` and a `link`. -/
def w4fields : List (String × XData) :=
  [("guid", .str "G1"), ("link", .str "https://example.org/g1")]

/-- Witness for C4: with `guid="G1"` present, `source_ref` is `"G1"`. -/
theorem source_ref_policy_witness :
    scalarAt w4fields "title" = true ∧
      ∃ r, parse_item dparse0 (.obj w4fields) = .ok r ∧ r.source_ref = some "G1" :=
  ⟨by decide,
    (source_ref_policy dparse0 w4fields (by decide) (by decide) (by decide)).1
      "G1" rfl (by decide)⟩

/-- C5: on a flat item the date policy holds — a present, non-empty and
parseable `pubDate` yields its calendar date; an absent, empty,
unparseable or even non-scalar `pubDate` yields `none`; in every case
`_parse_item` returns a record rather than raising. -/
theorem posted_date_policy (dparse : String → Option String) (fields : List (String × XData))
    (ht : scalarAt fields "title" = true) (hl : scalarAt fields "link" = true)
    (hd : scalarAt fields "description" = true) (hg : scalarAt fields "guid" = true) :
    ∃ r, parse_item dparse (.obj fields) = .ok r ∧
      (∀ s d, fields.lookup "pubDate" = some (.str s) → s ≠ "" → dparse s = some d →
        r.posted_date = some d) ∧
      ((fields.lookup "pubDate" = none ∨ fields.lookup "pubDate" = some .null) →
        r.posted_date = none) ∧
      (∀ s, fields.lookup "pubDate" = some (.str s) → dparse s = none →
        r.posted_date = none) ∧
      (∀ v, fields.lookup "pubDate" = some v → isScalar v = false → r.posted_date = none) := by
  refine ⟨expectedRecord dparse fields, parse_item_flat dparse fields ht hl hd hg,
    ?_, ?_, ?_, ?_⟩
  · intro s d hpl hse hds
    have hne : s.isEmpty = false := by
      cases hcase : s.isEmpty with
      | true => exact absurd ((String.isEmpty_iff s).mp hcase) hse
      | false => rfl
    simp [expectedRecord, postedDate, fieldOf, hpl, pyTruthy, hne, hds]
  · intro habs
    have hV : fieldOf fields "pubDate" = .null := by
      rcases habs with h | h <;> simp [fieldOf, h]
    simp [expectedRecord, postedDate, hV, pyTruthy]
  · intro s hpl hds
    by_cases hse : s = ""
    · subst hse
      simp [expectedRecord, postedDate, fieldOf, hpl, pyTruthy,
        show "".isEmpty = true from rfl]
    · have hne : s.isEmpty = false := by
        cases hcase : s.isEmpty with
        | true => exact absurd ((String.isEmpty_iff s).mp hcase) hse
        | false => rfl
      simp [expectedRecord, postedDate, fieldOf, hpl, pyTruthy, hne, hds]
  · intro v hpl hns
    cases v with
    | null => simp [expectedRecord, postedDate, fieldOf, hpl, pyTruthy]
    | str s => simp [isScalar] at hns
    | obj f => simp [expectedRecord, postedDate, fieldOf, hpl]
    | list xs => simp [expectedRecord, postedDate, fieldOf, hpl]

/-- A date parser recognizing exactly the witness timestamp. -/
def dparse1 : String → Option String := fun s =>
  if s = "Wed, 01 Jan 2025 10:00:00 GMT" then some "2025-01-01" else none

/-- Fields of the C5 witness item: a parseable `pubDate`. -/
def w5fields : List (String × XData) :=
  [("pubDate", .str "Wed, 01 Jan 2025 10:00:00 GMT")]

/-- Witness for C5: the parseable `pubDate` yields its ISO date. -/
theorem posted_date_policy_witness :
    scalarAt w5fields "guid" = true ∧
      ∃ r, parse_item dparse1 (.obj w5fields) = .ok r ∧ r.posted_date = some "2025-01-01" := by
  refine ⟨by decide, ?_⟩
  obtain ⟨r, hok, hi, _, _, _⟩ :=
    posted_date_policy dparse1 w5fields (by decide) (by decide) (by decide) (by decide)
  exact ⟨r, hok, hi "Wed, 01 Jan 2025 10:00:00 GMT" "2025-01-01" rfl (by decide) rfl⟩

/-- C6 (amended): on a flat item, missing fields never fail — they
degrade to absent (`title`, `url`, `posted_date`, `source_ref`) or to
the empty string (`description_raw`) and the item still yields a
record; but a field holding nested structure is not tolerated (see the
counterexample). -/
theorem item_fields_degrade (dparse : String → Option String) (fields : List (String × XData))
    (ht : scalarAt fields "title" = true) (hl : scalarAt fields "link" = true)
    (hd : scalarAt fields "description" = true) (hg : scalarAt fields "guid" = true) :
    ∃ r, parse_item dparse (.obj fields) = .ok r ∧
      ((fields.lookup "description" = none ∨ fields.lookup "description" = some .null ∨
          fields.lookup "description" = some (.str "")) → r.description_raw = some "") ∧
      (fields.lookup "title" = none → r.title = none) ∧
      (fields.lookup "link" = none → r.url = none) ∧
      (fields.lookup "pubDate" = none → r.posted_date = none) ∧
      (fields.lookup "guid" = none → fields.lookup "link" = none → r.source_ref = none) := by
  refine ⟨expectedRecord dparse fields, parse_item_flat dparse fields ht hl hd hg,
    ?_, ?_, ?_, ?_, ?_⟩
  · intro habs
    have hV : fieldOf fields "description" = .null ∨ fieldOf fields "description" = .str "" := by
      rcases habs with h | h | h <;> simp [fieldOf, h]
    rcases hV with h | h <;> simp [expectedRecord, pyOr, h, pyTruthy, optStrOf]
  · intro habs
    simp [expectedRecord, fieldOf, habs, optStrOf]
  · intro habs
    simp [expectedRecord, fieldOf, habs, optStrOf]
  · intro habs
    simp [expectedRecord, postedDate, fieldOf, habs, pyTruthy]
  · intro hga hla
    simp [expectedRecord, pyOr, fieldOf, hga, hla, pyTruthy, optStrOf]

/-- Witness for the amended C6: the empty item (every field missing)
yields a record with all the defaults. -/
theorem item_fields_degrade_witness :
    scalarAt ([] : List (String × XData)) "title" = true ∧
      ∃ r, parse_item dparse0 (.obj []) = .ok r ∧ r.description_raw = some "" ∧
        r.title = none ∧ r.source_ref = none := by
  refine ⟨by decide, ?_⟩
  obtain ⟨r, hok, hdesc, hti, _, _, hsr⟩ :=
    item_fields_degrade dparse0 [] (by decide) (by decide) (by decide) (by decide)
  exact ⟨r, hok, hdesc (Or.inl rfl), hti rfl, hsr rfl rfl⟩

/-- C6 (as stated) is false: an anomalous field inside well-formed XML
is not always tolerated.  An item whose `title` holds nested markup
(`<title><b>x</b></title>`, a mapping after `xmltodict`) makes pydantic
validation of `Optional[str]` raise, so this item yields no record. -/
theorem nested_title_fails_validation :
    parse_item dparse0 (.obj [("title", .obj [("b", .str "x")])]) =
      .error .validationError := rfl

/-- C7 (amended): parse raises the XML library's `ExpatError` (there is
no dedicated `MalformedFeedError` wrapper in the code) exactly when the
input is not parseable as XML; but structurally valid XML does not
guarantee success — a well-shaped feed (channel items flat mappings)
parses, while degenerate valid XML can raise other exceptions (see the
counterexample). -/
theorem parse_fails_expat_iff_not_xml (xmlp : String → Option XData)
    (dparse : String → Option String) (t : String) :
    (xmlp t = none ↔ parse_rss_text_to_items xmlp dparse t = .error .expatError) ∧
    (∀ cf items, xmlp t = some (rssData cf) → cf.lookup "item" = itemsRepr items →
      (∀ it ∈ items, SimpleItem it = true) →
      ∃ rs, parse_rss_text_to_items xmlp dparse t = .ok rs) := by
  constructor
  · constructor
    · intro h
      simp [parse_rss_text_to_items, h]
    · intro h
      cases hx : xmlp t with
      | none => rfl
      | some d =>
        simp only [parse_rss_text_to_items, hx] at h
        exact absurd h (parse_rss_items_ne_expat dparse d)
  · intro cf items hx hitem hsimple
    simp only [parse_rss_text_to_items, hx]
    rw [parse_rss_items_eq_mapParse dparse cf items hitem
      (fun it hit => simpleItem_isDict (hsimple it hit))]
    obtain ⟨rs, hrs, _, _⟩ := mapParse_simple dparse items hsimple
    exact ⟨rs, hrs⟩

/-- An abstracted `xmltodict.parse` knowing one well-formed document
(an empty channel) and treating everything else as non-XML. -/
def xmlpW7 : String → Option XData := fun s =>
  if s = "<rss><channel></channel></rss>" then some (rssData []) else none

/-- Witness for the amended C7: non-XML input raises the XML error and
a well-shaped feed parses. -/
theorem parse_fails_expat_iff_not_xml_witness :
    parse_rss_text_to_items xmlpW7 dparse0 "not xml at all" = .error .expatError ∧
      ∃ rs, parse_rss_text_to_items xmlpW7 dparse0 "<rss><channel></channel></rss>" = .ok rs :=
  ⟨(parse_fails_expat_iff_not_xml xmlpW7 dparse0 "not xml at all").1.mp rfl,
    (parse_fails_expat_iff_not_xml xmlpW7 dparse0 "<rss><channel></channel></rss>").2
      [] [] rfl rfl (by simp)⟩

/-- The structure `xmltodict.parse` gives the structurally valid XML
document `<rss>hello</rss>`. -/
def xmlpScalarRss : String → Option XData := fun s =>
  if s = "<rss>hello</rss>" then some (.obj [("rss", .str "hello")]) else none

/-- C7 (as stated) is false in its second half: `<rss>hello</rss>` is
structurally valid XML (the abstracted `xmltodict.parse` accepts it),
yet parse fails — the string under the `rss` key has no `.get`, so an
`AttributeError` is raised, not an `ExpatError`. -/
theorem valid_xml_parse_failure :
    parse_rss_text_to_items xmlpScalarRss dparse0 "<rss>hello</rss>" =
      .error .attributeError := rfl

/-- C8: a successful `list_jobs(limit)` over a feed normalizing to N
records returns `count = min N limit` together with exactly the first
`limit` records in feed order. -/
theorem list_jobs_limit_take (xmlp : String → Option XData) (dparse : String → Option String)
    (limit : Nat) (r : Response) (rs : List JobItem)
    (_h1 : 1 ≤ limit) (_h2 : limit ≤ 500) (hst : raiseForStatusOk r = true)
    (hp : parse_rss_text_to_items xmlp dparse r.text = .ok rs) :
    list_jobs xmlp dparse limit (some r) =
      .ok { count := min rs.length limit, jobs := rs.take limit } := by
  simp [list_jobs, hst, hp, List.length_take, Nat.min_comm]

/-- A flat witness item titled `s`. -/
def w8item (s : String) : XData := .obj [("title", .str s)]

/-- The five-item witness channel for C8. -/
def w8cf : List (String × XData) :=
  [("item", .list [w8item "t1", w8item "t2", w8item "t3", w8item "t4", w8item "t5"])]

/-- An abstracted `xmltodict.parse` returning the five-item channel for
every input. -/
def xmlpW8 : String → Option XData := fun _ => some (rssData w8cf)

/-- The 200 response carrying the witness feed body. -/
def w8resp : Response := { status_code := 200, headers := [], text := "feed body" }

/-- The record the pipeline produces for `w8item s`. -/
def w8rec (s : String) : JobItem :=
  { source := "euraxess", source_ref := none, url := none, title := some s,
    description_raw := some "", posted_date := none, raw := w8item s }

/-- Witness for C8: `limit = 2` over the five-item feed gives
`count = 2` and exactly the first two records. -/
theorem list_jobs_limit_take_witness :
    (1 ≤ 2 ∧ raiseForStatusOk w8resp = true) ∧
      list_jobs xmlpW8 dparse0 2 (some w8resp) =
        .ok { count := min (List.length [w8rec "t1", w8rec "t2", w8rec "t3", w8rec "t4",
                w8rec "t5"]) 2,
              jobs := List.take 2 [w8rec "t1", w8rec "t2", w8rec "t3", w8rec "t4",
                w8rec "t5"] } :=
  ⟨⟨by decide, by decide⟩,
    list_jobs_limit_take xmlpW8 dparse0 2 w8resp _ (by decide) (by decide) (by decide) rfl⟩

/-- C9: the memoized parse is observationally equivalent to a fresh
parse — under the cache invariant (every stored entry equals the value
the underlying function computes for its key, which holds in every
reachable state by the second conjunct) a call through the cache returns
exactly what `parse_rss_text_to_items` returns on that text, and the
invariant is preserved. -/
theorem cached_parse_transparent (xmlp : String → Option XData)
    (dparse : String → Option String) (c : LruCache) (t : String)
    (hinv : CacheInv (parse_rss_text_to_items xmlp dparse) c) :
    (cachedParse (parse_rss_text_to_items xmlp dparse) c t).1 =
        parse_rss_text_to_items xmlp dparse t ∧
      CacheInv (parse_rss_text_to_items xmlp dparse)
        (cachedParse (parse_rss_text_to_items xmlp dparse) c t).2 :=
  cachedParse_spec (parse_rss_text_to_items xmlp dparse) c t hinv

/-- An abstracted `xmltodict.parse` rejecting every input. -/
def xmlpNone : String → Option XData := fun _ => none

/-- Witness for C9 at the empty cache. -/
theorem cached_parse_transparent_witness :
    CacheInv (parse_rss_text_to_items xmlpNone dparse0) ⟨[]⟩ ∧
      (cachedParse (parse_rss_text_to_items xmlpNone dparse0) ⟨[]⟩ "a").1 =
        parse_rss_text_to_items xmlpNone dparse0 "a" :=
  ⟨(fun _ _ h => nomatch h),
    (cached_parse_transparent xmlpNone dparse0 ⟨[]⟩ "a" (fun _ _ h => nomatch h)).1⟩

/-- C10: every record `_parse_item` produces carries the constant
source string `"euraxess"` and its `raw` field is exactly the entry
mapping the other fields were derived from, unmodified. -/
theorem record_invariant (dparse : String → Option String) (item : XData) (r : JobItem)
    (h : parse_item dparse item = .ok r) : r.source = "euraxess" ∧ r.raw = item := by
  cases item with
  | obj fields =>
    rw [parse_item_obj_eq] at h
    cases h1 : validateOptStr (pyOr (fieldOf fields "guid") (fieldOf fields "link")) with
    | error e => rw [h1, exceptBind_error] at h; exact absurd h (by simp)
    | ok sr =>
      rw [h1, exceptBind_ok] at h
      cases h2 : validateOptStr (fieldOf fields "link") with
      | error e => rw [h2, exceptBind_error] at h; exact absurd h (by simp)
      | ok u =>
        rw [h2, exceptBind_ok] at h
        cases h3 : validateOptStr (fieldOf fields "title") with
        | error e => rw [h3, exceptBind_error] at h; exact absurd h (by simp)
        | ok ti =>
          rw [h3, exceptBind_ok] at h
          cases h4 : validateOptStr (pyOr (fieldOf fields "description") (XData.str "")) with
          | error e => rw [h4, exceptBind_error] at h; exact absurd h (by simp)
          | ok de =>
            rw [h4, exceptBind_ok] at h
            rw [show validateOptDict (XData.obj fields) = .ok (XData.obj fields) from rfl,
              exceptBind_ok] at h
            have he := Except.ok.inj h
            subst he
            exact ⟨rfl, rfl⟩
  | null =>
    rw [show parse_item dparse .null = .error .attributeError from rfl] at h
    exact absurd h (by simp)
  | str s =>
    rw [show parse_item dparse (.str s) = .error .attributeError from rfl] at h
    exact absurd h (by simp)
  | list xs =>
    rw [show parse_item dparse (.list xs) = .error .attributeError from rfl] at h
    exact absurd h (by simp)

/-- The C10 witness item. -/
def w10item : XData := .obj [("title", .str "T")]

/-- The record the pipeline produces for `w10item`. -/
def w10rec : JobItem :=
  { source := "euraxess", source_ref := none, url := none, title := some "T",
    description_raw := some "", posted_date := none, raw := w10item }

/-- Witness for C10 at a concrete item. -/
theorem record_invariant_witness :
    parse_item dparse0 w10item = .ok w10rec ∧
      w10rec.source = "euraxess" ∧ w10rec.raw = w10item :=
  ⟨rfl, record_invariant dparse0 w10item w10rec rfl⟩
